import Mathlib

/-!
Shallow embedding of the tslint-prettiest rule (`src/prettiestRule.ts`).

The rule walks a TypeScript syntax tree and reports three formatting
violations: multi-line constructor rewrites, and `catch`/`finally`/`else`
keywords that share a line with the block they follow.  The embedding below
mirrors the walker's code path by path: syntax-tree nodes carry a kind tag,
an ordered child list and the three offsets the rule reads (`getFullStart`,
`getStart`, `getEnd`); positions are derived from the raw source text exactly
as `ts.SourceFile.getLineAndCharacterOfPosition` derives them; fallible code
paths (JavaScript dereferences of `undefined`, `String.prototype.repeat` on a
negative count) are modelled with `Except`.
-/

/-- The subset of `ts.SyntaxKind` tags this rule dispatches on, plus a few
token kinds used to build realistic trees and a catch-all `OtherKind`. -/
inductive SyntaxKind where
  | SyntaxList
  | Parameter
  | PrivateKeyword
  | ProtectedKeyword
  | PublicKeyword
  | Block
  | CatchClause
  | FinallyKeyword
  | ElseKeyword
  | TryKeyword
  | IfKeyword
  | OpenParenToken
  | CloseParenToken
  | Identifier
  | ExpressionStatement
  | ConstructorKeyword
  | CommaToken
  | OtherKind
deriving DecidableEq

/-- A syntax-tree node: kind tag, ordered children, and the three offsets the
rule reads.  `fullStart` is the offset including leading trivia
(`node.getFullStart()`), `startPos` the first non-trivia character
(`node.getStart()`), `stop` the end offset (`node.getEnd()`). -/
inductive Node where
  | mk (kind : SyntaxKind) (children : List Node) (fullStart startPos stop : Nat)

def Node.kind : Node → SyntaxKind
  | .mk k _ _ _ _ => k

def Node.getChildren : Node → List Node
  | .mk _ cs _ _ _ => cs

def Node.getFullStart : Node → Nat
  | .mk _ _ f _ _ => f

def Node.getStart : Node → Nat
  | .mk _ _ _ s _ => s

def Node.getEnd : Node → Nat
  | .mk _ _ _ _ e => e

def Node.getWidth (n : Node) : Nat := n.getEnd - n.getStart

/-- Identity test used to model JavaScript reference equality (`===`) in
`Array.prototype.indexOf`.  Two distinct sibling nodes of one parse tree never
agree on kind and all three offsets, so comparing these fields is a faithful
model of reference identity for the sibling lookups this rule performs. -/
def Node.beq (a b : Node) : Bool :=
  a.kind == b.kind && a.getFullStart == b.getFullStart &&
    a.getStart == b.getStart && a.getEnd == b.getEnd

/-- `children.indexOf(node)`: index of the first element identical to `node`,
`-1` when absent. -/
def indexOfNode : List Node → Node → Int
  | [], _ => -1
  | c :: cs, n =>
    if Node.beq c n then 0
    else
      let r := indexOfNode cs n
      if r < 0 then -1 else r + 1

/-- A zero-based line/character pair, as returned by
`ts.SourceFile.getLineAndCharacterOfPosition`. -/
structure LineAndCharacter where
  line : Nat
  character : Nat
deriving DecidableEq

/-- Line = number of line breaks strictly before `pos`; character = distance
from the last line break before `pos` (or from the file start). -/
def getLineAndCharacterOfPosition (src : List Char) (pos : Nat) : LineAndCharacter :=
  let pre := src.take pos
  { line := pre.count '\n'
    character := (pre.reverse.takeWhile (fun c => !(c == '\n'))).length }

/-- A rule option as it appears in the host's `ruleArguments` array: the flag
strings and the positional numeric arguments.  The positional indent-size
argument is an integer per the host's option contract. -/
inductive OptionValue where
  | str (s : String)
  | num (n : Nat)
deriving DecidableEq

def OPTION_USE_TABS : String := "tabs"

/-- `RuleWalker.hasOption`: membership of the flag string in the options. -/
def hasOption (opts : List OptionValue) (name : String) : Bool :=
  opts.contains (OptionValue.str name)

/-- `(this.getOptions()[2] && this.getOptions()[2]) || 4`: the third option
slot when it is a truthy number, otherwise the default `4`.  An absent slot
and the falsy number `0` both fall through to `4`; a non-numeric slot is
outside the host's option contract (the positional size argument is an
integer) and likewise yields the default here. -/
def resolveSize (opts : List OptionValue) : Nat :=
  match opts.get? 2 with
  | some (OptionValue.num n) => if n == 0 then 4 else n
  | _ => 4

/-- The per-invocation state of `PrettiestWalker`: the source text and the
resolved configuration fields `tabs`, `size`, `indent`. -/
structure Walker where
  src : List Char
  tabs : Bool
  size : Nat
  indent : List Char
deriving DecidableEq

/-- The `PrettiestWalker` constructor: resolve `tabs`, `size` and the derived
indent unit (`"\t"` or `size` spaces). -/
def mkWalker (src : List Char) (options : List OptionValue) : Walker :=
  let tabs := hasOption options OPTION_USE_TABS
  let size := resolveSize options
  { src := src
    tabs := tabs
    size := size
    indent := if tabs then ['\t'] else List.replicate size ' ' }

/-- `s.repeat(n)` for a non-negative count. -/
def repeatList (l : List Char) (n : Nat) : List Char := (List.replicate n l).flatten

/-- `Math.ceil(a / b)` for an integer `a` and a positive integer `b`:
`-((-a) fdiv b)`.  (`Int.fdiv` is floor division, and the ceiling of a real
quotient is the negated floor of the negated quotient.) -/
def mathCeilDiv (a : Int) (b : Nat) : Int := -(Int.fdiv (-a) (b : Int))

def Walker.getStartPosition (w : Walker) (node : Node) : LineAndCharacter :=
  getLineAndCharacterOfPosition w.src node.getStart

def Walker.getEndPosition (w : Walker) (node : Node) : LineAndCharacter :=
  getLineAndCharacterOfPosition w.src node.getEnd

/-- `getIndentCount(node, offset)`: `pos = startColumn - offset`; the level is
`pos` itself with tabs, `Math.ceil(pos / size)` with spaces.  The value is an
integer because the JavaScript subtraction can go negative. -/
def Walker.getIndentCount (w : Walker) (node : Node) (offset : Int) : Int :=
  let pos : Int := ((w.getStartPosition node).character : Int) - offset
  if w.tabs then pos else mathCeilDiv pos w.size

def Walker.areOnSameLine (w : Walker) (node nextNode : Node) : Bool :=
  (w.getEndPosition node).line == (w.getStartPosition nextNode).line

/-- `node.getText()`: the source slice from `getStart` to `getEnd`. -/
def Walker.getText (w : Walker) (node : Node) : List Char :=
  (w.src.take node.getEnd).drop node.getStart

/-- The backward scan of `getPreviousNode`'s `while` loop, starting at index
`p` and stepping down until a `Block` or `CatchClause` child is found; `none`
models falling off the front of the array (`children[-1]`, i.e. `undefined`). -/
def searchPrev (children : List Node) : Nat → Option Node
  | 0 =>
    match children.get? 0 with
    | some c =>
      if c.kind == SyntaxKind.Block || c.kind == SyntaxKind.CatchClause then some c else none
    | none => none
  | q + 1 =>
    match children.get? (q + 1) with
    | some c =>
      if c.kind == SyntaxKind.Block || c.kind == SyntaxKind.CatchClause then some c
      else searchPrev children q
    | none => none

/-- `getPreviousNode(children, node)`: scan backward from `node`'s index for a
`Block` or `CatchClause` sibling.  `none` models the JavaScript result
`undefined` (index `-1` reached, or `node` absent from `children`). -/
def getPreviousNode (children : List Node) (node : Node) : Option Node :=
  let idx := indexOfNode children node
  if idx ≤ 0 then none else searchPrev children (idx.toNat - 1)

/-- A `Lint.Replacement`: delete `length` characters at `start`, insert
`text` there. -/
structure Replacement where
  start : Nat
  length : Nat
  text : List Char
deriving DecidableEq

/-- A rule failure as produced by `addFailureAtNode(node, message, fix)`:
the offending node's span, the message, and the fix. -/
structure Violation where
  start : Nat
  width : Nat
  message : List Char
  fix : Replacement
deriving DecidableEq

/-- Applying a `Replacement` to source text (spec §6: delete `removeWidth`
characters starting at `startOffset`, then insert `insertText` there). -/
def applyReplacement (src : List Char) (r : Replacement) : List Char :=
  (src.take r.start ++ r.text) ++ src.drop (r.start + r.length)

def ControlStatementsOwnLineMessage : List Char :=
  ("Control statements (else/catch/finally) should be on their own line.").toList

def MultilineConstructorMessage : List Char :=
  ("Constructors with property declarations should be multi-line.").toList

/-- The global regex replacement `text.replace(/, (?!\n)/g, ",\n" + ind)`:
scanning left to right, every occurrence of a comma followed by a space whose
next character is not a newline is replaced by a comma, a newline and the
indent string `ind`; everything else is copied unchanged. -/
def replaceCommaSpace (ind : List Char) : List Char → List Char
  | ',' :: ' ' :: rest =>
    if rest.head? == some '\n' then ',' :: ' ' :: replaceCommaSpace ind rest
    else ',' :: '\n' :: (ind ++ replaceCommaSpace ind rest)
  | c :: rest => c :: replaceCommaSpace ind rest
  | [] => []

/-- Modelled from the spec: "insert a newline + `count+1` indent units after
every comma that is not already followed by a newline".  This follows the
spec's words literally (a plain insertion after the comma, applying to every
comma whose next character is not a newline); it exists only to compare the
spec's description of the constructor fix text with the code's actual
substitution `replaceCommaSpace`. -/
def specInsertAfterCommas (ind : List Char) : List Char → List Char
  | ',' :: rest =>
    if rest.head? == some '\n' then ',' :: specInsertAfterCommas ind rest
    else ',' :: '\n' :: (ind ++ specInsertAfterCommas ind rest)
  | c :: rest => c :: specInsertAfterCommas ind rest
  | [] => []

/-- Whether a parameter node carries a `public`/`protected`/`private` modifier:
its first `SyntaxList` child is its modifier list, and the modifier list must
contain one of the three visibility keywords. -/
def hasVisibilityModifier (p : Node) : Bool :=
  match (p.getChildren.filter (fun c => c.kind == SyntaxKind.SyntaxList)).head? with
  | none => false
  | some modifiers =>
    ((modifiers.getChildren.filter (fun c =>
        c.kind == SyntaxKind.PrivateKeyword ||
        c.kind == SyntaxKind.ProtectedKeyword ||
        c.kind == SyntaxKind.PublicKeyword)).head?).isSome

/-- The parameter scan of `visitConstructorDeclaration`: walk the parameters
in order tracking `previousLine` and `hasProperties`; the result is the
`requiresFix` flag (the loop breaks at the first parameter that starts on
`previousLine` after a property parameter has been seen). -/
def scanParams (w : Walker) : List Node → Nat → Bool → Bool
  | [], _, _ => false
  | p :: rest, previousLine, hasProperties =>
    let hasProperties := hasProperties || hasVisibilityModifier p
    let line := (w.getStartPosition p).line
    if hasProperties && line == previousLine then true
    else scanParams w rest line hasProperties

/-- `visitConstructorDeclaration`: find the parameter list (the first
`SyntaxList` child), scan its parameters starting from the constructor's own
start line, and when a fix is required emit one violation whose fix replaces
the whole parameter-list span with the multi-line rewrite. -/
def Walker.visitConstructorDeclaration (w : Walker) (node : Node) : Option Violation :=
  match (node.getChildren.filter (fun c => c.kind == SyntaxKind.SyntaxList)).head? with
  | none => none
  | some signature =>
    let parameters := signature.getChildren.filter (fun c => c.kind == SyntaxKind.Parameter)
    let requiresFix := scanParams w parameters (w.getStartPosition node).line false
    if requiresFix then
      let count := (w.getIndentCount node 0).toNat
      let text0 :=
        ('\n' :: repeatList w.indent (count + 1)) ++ w.getText signature ++
          ('\n' :: repeatList w.indent count)
      let text := replaceCommaSpace (repeatList w.indent (count + 1)) text0
      some { start := signature.getStart
             width := signature.getWidth
             message := MultilineConstructorMessage ++ '\n' :: text
             fix := { start := signature.getStart, length := signature.getWidth, text := text } }
    else none

/-- `checkTryStatement(tryStatement, node)`: shared same-line check for the
catch clause and the `finally` keyword.  `Except.error` models the two
JavaScript exceptions on this path: dereferencing the `undefined` returned by
`getPreviousNode` when no `Block`/`CatchClause` sibling precedes `node`, and
`String.prototype.repeat` applied to a negative indent count. -/
def Walker.checkTryStatement (w : Walker) (tryStatement : Node) (node : Node) :
    Except Unit (Option Violation) :=
  match getPreviousNode tryStatement.getChildren node with
  | none => Except.error ()
  | some previousNode =>
    if w.areOnSameLine previousNode node then
      let countI := w.getIndentCount node 2
      if countI < 0 then Except.error ()
      else
        Except.ok (some
          { start := node.getStart
            width := node.getWidth
            message := ControlStatementsOwnLineMessage
            fix := { start := node.getFullStart, length := 1
                     text := '\n' :: repeatList w.indent countI.toNat } })
    else Except.ok none

/-- `visitTryStatement`: run the shared check on the catch clause (when
present) and on the `finally` keyword token (when present), in that order. -/
def Walker.visitTryStatement (w : Walker) (tryStatement : Node) :
    Except Unit (List Violation) := do
  let children := tryStatement.getChildren
  let vCatch ←
    match (children.filter (fun c => c.kind == SyntaxKind.CatchClause)).head? with
    | some catchClause => w.checkTryStatement tryStatement catchClause
    | none => pure none
  let vFinally ←
    match (children.filter (fun c => c.kind == SyntaxKind.FinallyKeyword)).head? with
    | some finallyBlock => w.checkTryStatement tryStatement finallyBlock
    | none => pure none
  pure (vCatch.toList ++ vFinally.toList)

/-- `visitIfStatement`: locate the `else` keyword among the direct children;
compute `previousNode = children[indexOf(else) - 1]` and the same-line flag
(this dereference happens before the brace check, so an `else` keyword with no
preceding sibling is a crash, not a skip); exempt if statements with no
`Block` among their direct children; otherwise emit the keyword violation. -/
def Walker.visitIfStatement (w : Walker) (ifStatement : Node) :
    Except Unit (Option Violation) :=
  match (ifStatement.getChildren.filter (fun ch => ch.kind == SyntaxKind.ElseKeyword)).head? with
  | none => Except.ok none
  | some elseKeyword =>
    match (if indexOfNode ifStatement.getChildren elseKeyword ≤ 0 then none
           else ifStatement.getChildren.get?
             ((indexOfNode ifStatement.getChildren elseKeyword).toNat - 1)) with
    | none => Except.error ()
    | some previousNode =>
      let requiresFix := w.areOnSameLine previousNode elseKeyword
      if !(ifStatement.getChildren.any (fun ch => ch.kind == SyntaxKind.Block)) then Except.ok none
      else if requiresFix then
        let countI := w.getIndentCount elseKeyword 2
        if countI < 0 then Except.error ()
        else
          Except.ok (some
            { start := elseKeyword.getStart
              width := elseKeyword.getWidth
              message := ControlStatementsOwnLineMessage
              fix := { start := elseKeyword.getFullStart, length := 1
                       text := '\n' :: repeatList w.indent countI.toNat } })
      else Except.ok none

/-- Helper for stating C3's amended claim: every listed node starts on a line
different from the line of the node before it (seeded with the constructor's
own start line). -/
def chainDistinct (w : Walker) : Nat → List Node → Bool
  | _, [] => true
  | previousLine, p :: rest =>
    ((w.getStartPosition p).line != previousLine) &&
      chainDistinct w (w.getStartPosition p).line rest

/-!
Concrete fixtures.  Each fixture is a hand-built parse tree for a small
source text, with offsets matching the text exactly; re-parsed fixtures are
the trees of the text after a fix has been applied.
-/

/-- `try { f(); } catch (e) { g(); }` -/
def trySrc : List Char := ("try \x7b f(); \x7d catch (e) \x7b g(); \x7d").toList

def tryW : Walker := mkWalker trySrc []

def tryKwN : Node := Node.mk SyntaxKind.TryKeyword [] 0 0 3

def tryBlockN : Node := Node.mk SyntaxKind.Block [] 3 4 12

def tryCatchN : Node := Node.mk SyntaxKind.CatchClause [] 12 13 31

def tryStmtN : Node := Node.mk SyntaxKind.OtherKind [tryKwN, tryBlockN, tryCatchN] 0 0 31

/-- The catch clause of the fixed text, `try { f(); }\n            catch (e) { g(); }`. -/
def tryCatchN2 : Node := Node.mk SyntaxKind.CatchClause [] 12 25 43

def tryStmtN2 : Node := Node.mk SyntaxKind.OtherKind [tryKwN, tryBlockN, tryCatchN2] 0 0 43

/-- `try finally {}` with no block before the `finally` keyword: a malformed
shape in which `getPreviousNode` finds no `Block`/`CatchClause` sibling. -/
def finSrc : List Char := ("try finally \x7b\x7d").toList

def finW : Walker := mkWalker finSrc []

def finTryStmtN : Node :=
  Node.mk SyntaxKind.OtherKind
    [Node.mk SyntaxKind.TryKeyword [] 0 0 3,
     Node.mk SyntaxKind.FinallyKeyword [] 3 4 11,
     Node.mk SyntaxKind.Block [] 11 12 14] 0 0 14

/-- `if (x) { a(); } else { b(); }` -/
def ifSrc : List Char := ("if (x) \x7b a(); \x7d else \x7b b(); \x7d").toList

def ifW : Walker := mkWalker ifSrc []

def ifThenBlockN : Node := Node.mk SyntaxKind.Block [] 6 7 15

def ifElseKwN : Node := Node.mk SyntaxKind.ElseKeyword [] 15 16 20

def ifStmtN : Node :=
  Node.mk SyntaxKind.OtherKind
    [Node.mk SyntaxKind.IfKeyword [] 0 0 2,
     Node.mk SyntaxKind.OpenParenToken [] 2 3 4,
     Node.mk SyntaxKind.Identifier [] 4 4 5,
     Node.mk SyntaxKind.CloseParenToken [] 5 5 6,
     ifThenBlockN, ifElseKwN,
     Node.mk SyntaxKind.Block [] 20 21 29] 0 0 29

/-- `if (x) a(); else { b(); }`: unbraced consequent, braced else branch. -/
def if2Src : List Char := ("if (x) a(); else \x7b b(); \x7d").toList

def if2W : Walker := mkWalker if2Src []

def if2ThenN : Node := Node.mk SyntaxKind.ExpressionStatement [] 6 7 11

def if2ElseKwN : Node := Node.mk SyntaxKind.ElseKeyword [] 11 12 16

def if2StmtN : Node :=
  Node.mk SyntaxKind.OtherKind
    [Node.mk SyntaxKind.IfKeyword [] 0 0 2,
     Node.mk SyntaxKind.OpenParenToken [] 2 3 4,
     Node.mk SyntaxKind.Identifier [] 4 4 5,
     Node.mk SyntaxKind.CloseParenToken [] 5 5 6,
     if2ThenN, if2ElseKwN,
     Node.mk SyntaxKind.Block [] 16 17 25] 0 0 25

/-- `constructor(a: number,private b: string)` — the separating comma is not
followed by a space. -/
def cnsSrc : List Char := ("constructor(a: number,private b: string)").toList

def cnsW : Walker := mkWalker cnsSrc []

def cnsSigN : Node :=
  Node.mk SyntaxKind.SyntaxList
    [Node.mk SyntaxKind.Parameter [] 12 12 21,
     Node.mk SyntaxKind.CommaToken [] 21 21 22,
     Node.mk SyntaxKind.Parameter
       [Node.mk SyntaxKind.SyntaxList [Node.mk SyntaxKind.PrivateKeyword [] 22 22 29] 22 22 29]
       22 22 39] 12 12 39

def cnsCtorN : Node :=
  Node.mk SyntaxKind.OtherKind
    [Node.mk SyntaxKind.ConstructorKeyword [] 0 0 11,
     Node.mk SyntaxKind.OpenParenToken [] 11 11 12,
     cnsSigN,
     Node.mk SyntaxKind.CloseParenToken [] 39 39 40] 0 0 40

/-- The parse tree of `constructor(\n    a: number,private b: string\n)`,
the text produced by applying the fix emitted for `cnsCtorN`. -/
def cnsSig2N : Node :=
  Node.mk SyntaxKind.SyntaxList
    [Node.mk SyntaxKind.Parameter [] 12 17 26,
     Node.mk SyntaxKind.CommaToken [] 26 26 27,
     Node.mk SyntaxKind.Parameter
       [Node.mk SyntaxKind.SyntaxList [Node.mk SyntaxKind.PrivateKeyword [] 27 27 34] 27 27 34]
       27 27 44] 12 17 44

def cnsCtor2N : Node :=
  Node.mk SyntaxKind.OtherKind
    [Node.mk SyntaxKind.ConstructorKeyword [] 0 0 11,
     Node.mk SyntaxKind.OpenParenToken [] 11 11 12,
     cnsSig2N,
     Node.mk SyntaxKind.CloseParenToken [] 44 45 46] 0 0 46

/-- `constructor(a: number, private b: string)` — the spec's own example,
with a comma-space separator. -/
def cspSrc : List Char := ("constructor(a: number, private b: string)").toList

def cspW : Walker := mkWalker cspSrc []

def cspSigN : Node :=
  Node.mk SyntaxKind.SyntaxList
    [Node.mk SyntaxKind.Parameter [] 12 12 21,
     Node.mk SyntaxKind.CommaToken [] 21 21 22,
     Node.mk SyntaxKind.Parameter
       [Node.mk SyntaxKind.SyntaxList [Node.mk SyntaxKind.PrivateKeyword [] 22 23 30] 22 23 30]
       22 23 40] 12 12 40

def cspCtorN : Node :=
  Node.mk SyntaxKind.OtherKind
    [Node.mk SyntaxKind.ConstructorKeyword [] 0 0 11,
     Node.mk SyntaxKind.OpenParenToken [] 11 11 12,
     cspSigN,
     Node.mk SyntaxKind.CloseParenToken [] 40 40 41] 0 0 41

/-- The parse tree of `constructor(\n    a: number,\n    private b: string\n)`,
the text produced by applying the fix emitted for `cspCtorN`. -/
def cspSig2N : Node :=
  Node.mk SyntaxKind.SyntaxList
    [Node.mk SyntaxKind.Parameter [] 12 17 26,
     Node.mk SyntaxKind.CommaToken [] 26 26 27,
     Node.mk SyntaxKind.Parameter
       [Node.mk SyntaxKind.SyntaxList [Node.mk SyntaxKind.PrivateKeyword [] 27 32 39] 27 32 39]
       27 32 49] 12 17 49

def cspCtor2N : Node :=
  Node.mk SyntaxKind.OtherKind
    [Node.mk SyntaxKind.ConstructorKeyword [] 0 0 11,
     Node.mk SyntaxKind.OpenParenToken [] 11 11 12,
     cspSig2N,
     Node.mk SyntaxKind.CloseParenToken [] 49 50 51] 0 0 51

/-- `constructor(private b: string)` — a single property parameter, written
on the constructor's own line. -/
def c1pSrc : List Char := ("constructor(private b: string)").toList

def c1pW : Walker := mkWalker c1pSrc []

def c1pParamN : Node :=
  Node.mk SyntaxKind.Parameter
    [Node.mk SyntaxKind.SyntaxList [Node.mk SyntaxKind.PrivateKeyword [] 12 12 19] 12 12 19]
    12 12 29

def c1pSigN : Node := Node.mk SyntaxKind.SyntaxList [c1pParamN] 12 12 29

def c1pCtorN : Node :=
  Node.mk SyntaxKind.OtherKind
    [Node.mk SyntaxKind.ConstructorKeyword [] 0 0 11,
     Node.mk SyntaxKind.OpenParenToken [] 11 11 12,
     c1pSigN,
     Node.mk SyntaxKind.CloseParenToken [] 29 29 30] 0 0 30

/-- `constructor(\n    private b: string)` — the single property parameter on
its own line, distinct from the constructor's start line. -/
def c2lSrc : List Char := ("constructor(\n    private b: string)").toList

def c2lW : Walker := mkWalker c2lSrc []

def c2lParamN : Node :=
  Node.mk SyntaxKind.Parameter
    [Node.mk SyntaxKind.SyntaxList [Node.mk SyntaxKind.PrivateKeyword [] 12 17 24] 12 17 24]
    12 17 34

def c2lCtorN : Node :=
  Node.mk SyntaxKind.OtherKind
    [Node.mk SyntaxKind.ConstructorKeyword [] 0 0 11,
     Node.mk SyntaxKind.OpenParenToken [] 11 11 12,
     Node.mk SyntaxKind.SyntaxList [c2lParamN] 12 17 34,
     Node.mk SyntaxKind.CloseParenToken [] 34 34 35] 0 0 35

/-- Walkers and nodes for the indent-level examples: a node at column 9 with
the default four-space unit, and a node at column 3 with tabs. -/
def c4W : Walker := mkWalker (List.replicate 20 'x') []

def c4WT : Walker := mkWalker (List.replicate 20 'x') [OptionValue.str OPTION_USE_TABS]

def c4Node9 : Node := Node.mk SyntaxKind.ElseKeyword [] 9 9 13

def c4Node3 : Node := Node.mk SyntaxKind.ElseKeyword [] 3 3 7

/-!
Helper lemmas.
-/

theorem rcs_nil (ind : List Char) : replaceCommaSpace ind [] = [] := rfl

theorem rcs_comma_space (ind rest : List Char) :
    replaceCommaSpace ind (',' :: ' ' :: rest) =
      if rest.head? == some '\n' then ',' :: ' ' :: replaceCommaSpace ind rest
      else ',' :: '\n' :: (ind ++ replaceCommaSpace ind rest) := rfl

theorem rcs_cons_ne (ind : List Char) (c : Char) (rest : List Char) (h : ¬ c = ',') :
    replaceCommaSpace ind (c :: rest) = c :: replaceCommaSpace ind rest := by
  cases rest with
  | nil => simp [replaceCommaSpace, h]
  | cons c2 r2 => simp [replaceCommaSpace, h]

theorem rcs_comma_no_space (ind : List Char) (rest : List Char) (h : rest.head? ≠ some ' ') :
    replaceCommaSpace ind (',' :: rest) = ',' :: replaceCommaSpace ind rest := by
  cases rest with
  | nil => rfl
  | cons c2 r2 =>
    have h2 : ¬ c2 = ' ' := by simpa using h
    simp [replaceCommaSpace, h2]

/-- The comma substitution fires at an occurrence of `", "` anywhere in the
text whenever the character after the space is not a newline, replacing the
space by a newline and the indent string. -/
theorem rcs_append_comma_space (ind b : List Char) (hb : b.head? ≠ some '\n') :
    ∀ a : List Char, replaceCommaSpace ind (a ++ ',' :: ' ' :: b) =
      replaceCommaSpace ind a ++ ',' :: '\n' :: (ind ++ replaceCommaSpace ind b) := by
  have hbfalse : (b.head? == some '\n') = false := beq_eq_false_iff_ne.mpr hb
  have hbase : replaceCommaSpace ind (',' :: ' ' :: b) =
      ',' :: '\n' :: (ind ++ replaceCommaSpace ind b) := by
    rw [rcs_comma_space, hbfalse]; simp
  have main : ∀ (n : Nat) (a : List Char), a.length ≤ n →
      replaceCommaSpace ind (a ++ ',' :: ' ' :: b) =
        replaceCommaSpace ind a ++ ',' :: '\n' :: (ind ++ replaceCommaSpace ind b) := by
    intro n
    induction n with
    | zero =>
      intro a ha
      have hnil : a = [] := List.length_eq_zero.mp (Nat.le_zero.mp ha)
      subst hnil
      simpa using hbase
    | succ n ih =>
      intro a ha
      cases a with
      | nil => simpa using hbase
      | cons c a' =>
        by_cases hc : c = ','
        · subst hc
          cases a' with
          | nil =>
            rw [List.cons_append, List.nil_append,
              rcs_comma_no_space ind (',' :: ' ' :: b) (by simp), hbase,
              rcs_comma_no_space ind [] (by simp)]
            simp [rcs_nil]
          | cons c2 a'' =>
            by_cases hc2 : c2 = ' '
            · subst hc2
              rw [List.cons_append, List.cons_append, rcs_comma_space, rcs_comma_space]
              cases a'' with
              | nil =>
                simp only [List.nil_append, List.head?_cons]
                rw [if_neg (by decide), if_neg (by decide), hbase]
                simp [rcs_nil]
              | cons c3 a3 =>
                have hlen : (c3 :: a3).length ≤ n := by
                  simp only [List.length_cons] at ha ⊢; omega
                have hhd : ((c3 :: a3) ++ ',' :: ' ' :: b).head? = some c3 := rfl
                rw [hhd, List.head?_cons, ih (c3 :: a3) hlen]
                by_cases hc3 : c3 = '\n' <;> simp [hc3]
            · rw [List.cons_append,
                rcs_comma_no_space ind ((c2 :: a'') ++ ',' :: ' ' :: b) (by simp [hc2]),
                rcs_comma_no_space ind (c2 :: a'') (by simp [hc2]),
                ih (c2 :: a'') (by simp only [List.length_cons] at ha ⊢; omega)]
              simp
        · rw [List.cons_append, rcs_cons_ne ind c _ hc, rcs_cons_ne ind c a' hc,
            ih a' (Nat.le_of_succ_le_succ ha)]
          simp
  exact fun a => main a.length a le_rfl

/-- A comma that is not followed by a space is never split: the substitution
leaves it in place and processes the two sides independently. -/
theorem rcs_append_comma (ind b : List Char) (hb : b.head? ≠ some ' ') :
    ∀ a : List Char, replaceCommaSpace ind (a ++ ',' :: b) =
      replaceCommaSpace ind a ++ ',' :: replaceCommaSpace ind b := by
  have hbase : replaceCommaSpace ind (',' :: b) = ',' :: replaceCommaSpace ind b :=
    rcs_comma_no_space ind b hb
  have main : ∀ (n : Nat) (a : List Char), a.length ≤ n →
      replaceCommaSpace ind (a ++ ',' :: b) =
        replaceCommaSpace ind a ++ ',' :: replaceCommaSpace ind b := by
    intro n
    induction n with
    | zero =>
      intro a ha
      have hnil : a = [] := List.length_eq_zero.mp (Nat.le_zero.mp ha)
      subst hnil
      simpa using hbase
    | succ n ih =>
      intro a ha
      cases a with
      | nil => simpa using hbase
      | cons c a' =>
        by_cases hc : c = ','
        · subst hc
          cases a' with
          | nil =>
            rw [List.cons_append, List.nil_append,
              rcs_comma_no_space ind (',' :: b) (by simp), hbase,
              rcs_comma_no_space ind [] (by simp)]
            simp [rcs_nil]
          | cons c2 a'' =>
            by_cases hc2 : c2 = ' '
            · subst hc2
              rw [List.cons_append, List.cons_append, rcs_comma_space, rcs_comma_space]
              cases a'' with
              | nil =>
                simp only [List.nil_append, List.head?_cons]
                rw [if_neg (by decide), if_neg (by decide), hbase]
                simp [rcs_nil]
              | cons c3 a3 =>
                have hlen : (c3 :: a3).length ≤ n := by
                  simp only [List.length_cons] at ha ⊢; omega
                have hhd : ((c3 :: a3) ++ ',' :: b).head? = some c3 := rfl
                rw [hhd, List.head?_cons, ih (c3 :: a3) hlen]
                by_cases hc3 : c3 = '\n' <;> simp [hc3]
            · rw [List.cons_append,
                rcs_comma_no_space ind ((c2 :: a'') ++ ',' :: b) (by simp [hc2]),
                rcs_comma_no_space ind (c2 :: a'') (by simp [hc2]),
                ih (c2 :: a'') (by simp only [List.length_cons] at ha ⊢; omega)]
              simp
        · rw [List.cons_append, rcs_cons_ne ind c _ hc, rcs_cons_ne ind c a' hc,
            ih a' (Nat.le_of_succ_le_succ ha)]
          simp
  exact fun a => main a.length a le_rfl

/-- `Math.ceil` of an integer divided by a natural number agrees with the
rational ceiling (also for `b = 0`, where both sides are `0`). -/
theorem mathCeilDiv_eq_ceil (a : Int) (b : Nat) :
    mathCeilDiv a b = ⌈(a : ℚ) / (b : ℚ)⌉ := by
  unfold mathCeilDiv
  rw [Int.fdiv_eq_ediv (-a) (Int.ofNat_nonneg b)]
  have hfl : (⌊(((-a : Int) : ℚ)) / ((b : ℚ))⌋ : Int) = (-a) / (b : Int) :=
    Rat.floor_intCast_div_natCast (-a) b
  rw [← hfl, ← Int.ceil_neg]
  congr 1
  push_cast
  ring

theorem line_eq_count (src : List Char) (pos : Nat) :
    (getLineAndCharacterOfPosition src pos).line = (src.take pos).count '\n' := rfl

/-- Replacing one character at offset `p` by a text containing a newline puts
every offset at or before `p` on a strictly earlier line of the new text than
every offset at or past the end of the inserted text. -/
theorem count_newline_lt (src ins : List Char) (p e k : Nat)
    (hep : e ≤ p) (hp : p ≤ src.length) (hins : '\n' ∈ ins) :
    (((src.take p ++ ins) ++ src.drop (p + 1)).take e).count '\n' <
      (((src.take p ++ ins) ++ src.drop (p + 1)).take (p + ins.length + k)).count '\n' := by
  have hlen1 : (src.take p).length = p := by
    rw [List.length_take]; omega
  have hlen2 : (src.take p ++ ins).length = p + ins.length := by
    rw [List.length_append, hlen1]
  have h1 : ((src.take p ++ ins) ++ src.drop (p + 1)).take e = src.take e := by
    rw [List.take_append_of_le_length (by rw [hlen2]; omega),
      List.take_append_of_le_length (by rw [hlen1]; exact hep),
      List.take_take, Nat.min_eq_left hep]
  have h2 : ((src.take p ++ ins) ++ src.drop (p + 1)).take (p + ins.length + k) =
      (src.take p ++ ins) ++ (src.drop (p + 1)).take k := by
    conv_lhs => rw [← hlen2]
    exact List.take_append k
  rw [h1, h2, List.count_append, List.count_append]
  have hmono : (src.take e).count '\n' ≤ (src.take p).count '\n' := by
    have heq : src.take e = (src.take p).take e := by
      rw [List.take_take, Nat.min_eq_left hep]
    rw [heq]
    exact (List.take_sublist e (src.take p)).count_le '\n'
  have hpos : 0 < ins.count '\n' := List.count_pos_iff.mpr hins
  omega

/-- Characterisation of the shared same-line check: with a previous sibling
found and a non-negative indent count, the check emits the keyword violation
exactly when the previous sibling ends on the keyword's start line. -/
theorem checkTryStatement_spec (w : Walker) (t kw prev : Node)
    (hprev : getPreviousNode t.getChildren kw = some prev)
    (hcount : 0 ≤ w.getIndentCount kw 2) :
    w.checkTryStatement t kw = Except.ok
      (if w.areOnSameLine prev kw then
        some { start := kw.getStart, width := kw.getWidth
               message := ControlStatementsOwnLineMessage
               fix := { start := kw.getFullStart, length := 1
                        text := '\n' :: repeatList w.indent (w.getIndentCount kw 2).toNat } }
      else none) := by
  unfold Walker.checkTryStatement
  rw [hprev]
  cases hs : w.areOnSameLine prev kw with
  | false => simp [hs]
  | true => simp [hs, Int.not_lt.mpr hcount]

/-- Inversion: an emitted keyword violation implies the same-line condition
held and pins the shape of its fix. -/
theorem checkTryStatement_inv (w : Walker) (t kw prev : Node) (viol : Violation)
    (hprev : getPreviousNode t.getChildren kw = some prev)
    (hchk : w.checkTryStatement t kw = Except.ok (some viol)) :
    w.areOnSameLine prev kw = true ∧
      viol.fix = { start := kw.getFullStart, length := 1
                   text := '\n' :: repeatList w.indent (w.getIndentCount kw 2).toNat } := by
  unfold Walker.checkTryStatement at hchk
  rw [hprev] at hchk
  cases hs : w.areOnSameLine prev kw with
  | false => simp [hs] at hchk
  | true =>
    by_cases hneg : w.getIndentCount kw 2 < 0
    · simp [hs, hneg] at hchk
    · simp [hs, hneg] at hchk
      exact ⟨rfl, by rw [← hchk]⟩

/-- Characterisation of the else-keyword check: with the else keyword found at
index `i + 1`, a preceding sibling at index `i`, a `Block` among the direct
children and a non-negative indent count, the check emits the keyword
violation exactly when the preceding sibling ends on the keyword's line. -/
theorem visitIfStatement_spec (w : Walker) (n e prev : Node) (i : Nat)
    (he : (n.getChildren.filter (fun ch => ch.kind == SyntaxKind.ElseKeyword)).head? = some e)
    (hidx : indexOfNode n.getChildren e = ((i + 1 : Nat) : Int))
    (hprev : n.getChildren.get? i = some prev)
    (hblock : n.getChildren.any (fun ch => ch.kind == SyntaxKind.Block) = true)
    (hcount : 0 ≤ w.getIndentCount e 2) :
    w.visitIfStatement n = Except.ok
      (if w.areOnSameLine prev e then
        some { start := e.getStart, width := e.getWidth
               message := ControlStatementsOwnLineMessage
               fix := { start := e.getFullStart, length := 1
                        text := '\n' :: repeatList w.indent (w.getIndentCount e 2).toNat } }
      else none) := by
  have hle : ¬ (((i + 1 : Nat) : Int) ≤ 0) := by omega
  have ht : ((i + 1 : Nat) : Int).toNat - 1 = i := by omega
  unfold Walker.visitIfStatement
  split
  · rename_i hnone
    rw [hnone] at he
    cases he
  · rename_i elseKeyword hsome
    rw [he] at hsome
    injection hsome with hEq
    subst hEq
    split
    · rename_i hnone2
      rw [hidx, if_neg hle, ht, hprev] at hnone2
      cases hnone2
    · rename_i previousNode hsome2
      rw [hidx, if_neg hle, ht, hprev] at hsome2
      injection hsome2 with hEq2
      subst hEq2
      cases hs : w.areOnSameLine prev e with
      | false => simp [hs, hblock]
      | true => simp [hs, hblock, Int.not_lt.mpr hcount]

/-- Inversion: an emitted else-keyword violation implies the same-line
condition held and pins the shape of its fix. -/
theorem visitIfStatement_inv (w : Walker) (n e prev : Node) (i : Nat) (viol : Violation)
    (he : (n.getChildren.filter (fun ch => ch.kind == SyntaxKind.ElseKeyword)).head? = some e)
    (hidx : indexOfNode n.getChildren e = ((i + 1 : Nat) : Int))
    (hprev : n.getChildren.get? i = some prev)
    (hchk : w.visitIfStatement n = Except.ok (some viol)) :
    w.areOnSameLine prev e = true ∧
      viol.fix = { start := e.getFullStart, length := 1
                   text := '\n' :: repeatList w.indent (w.getIndentCount e 2).toNat } := by
  have hle : ¬ (((i + 1 : Nat) : Int) ≤ 0) := by omega
  have ht : ((i + 1 : Nat) : Int).toNat - 1 = i := by omega
  unfold Walker.visitIfStatement at hchk
  split at hchk
  · simp at hchk
  · rename_i elseKeyword hsome
    rw [he] at hsome
    injection hsome with hEq
    subst hEq
    split at hchk
    · simp at hchk
    · rename_i previousNode hsome2
      rw [hidx, if_neg hle, ht, hprev] at hsome2
      injection hsome2 with hEq2
      subst hEq2
      cases hany : n.getChildren.any (fun ch => ch.kind == SyntaxKind.Block) with
      | false => simp [hany] at hchk
      | true =>
        cases hs : w.areOnSameLine prev e with
        | false => simp [hany, hs] at hchk
        | true =>
          by_cases hneg : w.getIndentCount e 2 < 0
          · simp [hany, hs, hneg] at hchk
          · simp [hany, hs, hneg] at hchk
            exact ⟨rfl, by rw [← hchk]⟩

/-- When the preceding sibling does not end on the else keyword's line, the
else check reports nothing (whether or not a block child is present). -/
theorem visitIfStatement_not_same_line (w : Walker) (n e prev : Node) (i : Nat)
    (he : (n.getChildren.filter (fun ch => ch.kind == SyntaxKind.ElseKeyword)).head? = some e)
    (hidx : indexOfNode n.getChildren e = ((i + 1 : Nat) : Int))
    (hprev : n.getChildren.get? i = some prev)
    (hs : w.areOnSameLine prev e = false) :
    w.visitIfStatement n = Except.ok none := by
  have hle : ¬ (((i + 1 : Nat) : Int) ≤ 0) := by omega
  have ht : ((i + 1 : Nat) : Int).toNat - 1 = i := by omega
  unfold Walker.visitIfStatement
  split
  · rfl
  · rename_i elseKeyword hsome
    rw [he] at hsome
    injection hsome with hEq
    subst hEq
    split
    · rename_i hnone2
      rw [hidx, if_neg hle, ht, hprev] at hnone2
      cases hnone2
    · rename_i previousNode hsome2
      rw [hidx, if_neg hle, ht, hprev] at hsome2
      injection hsome2 with hEq2
      subst hEq2
      cases hany : n.getChildren.any (fun ch => ch.kind == SyntaxKind.Block) with
      | false => simp [hany]
      | true => simp [hany, hs]

/-- The parameter scan reports `requiresFix` whenever every parameter starts
on line `L` and either the flag is already set (with at least one parameter
present) or some parameter carries a visibility modifier. -/
theorem scanParams_same_line (w : Walker) :
    ∀ (ps : List Node) (L : Nat) (h : Bool),
      (∀ p ∈ ps, (w.getStartPosition p).line = L) →
      ((h = true ∧ ps ≠ []) ∨ ∃ p ∈ ps, hasVisibilityModifier p = true) →
      scanParams w ps L h = true := by
  intro ps
  induction ps with
  | nil =>
    intro L h _ htrig
    rcases htrig with ⟨_, hne⟩ | ⟨p, hp, _⟩
    · exact absurd rfl hne
    · exact absurd hp (List.not_mem_nil p)
  | cons p rest ih =>
    intro L h hline htrig
    have hl : (w.getStartPosition p).line = L := hline p (List.mem_cons_self p rest)
    by_cases hv : (h || hasVisibilityModifier p) = true
    · simp [scanParams, hv, hl]
    · have hvf : (h || hasVisibilityModifier p) = false := by
        revert hv; cases h || hasVisibilityModifier p <;> simp
      have hh : h = false := by
        revert hvf; cases h <;> simp
      have hvp : hasVisibilityModifier p = false := by
        revert hvf; cases hasVisibilityModifier p <;> simp
      rcases htrig with ⟨ht, _⟩ | ⟨q, hq, hvq⟩
      · rw [hh] at ht; cases ht
      · rcases List.mem_cons.mp hq with rfl | hq'
        · rw [hvq] at hvp; cases hvp
        · simp only [scanParams, hvf, Bool.false_and, if_false, hl]
          exact ih L false (fun r hr => hline r (List.mem_cons_of_mem p hr))
            (Or.inr ⟨q, hq', hvq⟩)

/-- The parameter scan never reports `requiresFix` when every parameter starts
on a line different from its predecessor's (seeded with line `L`). -/
theorem scanParams_chain (w : Walker) :
    ∀ (ps : List Node) (L : Nat) (h : Bool),
      chainDistinct w L ps = true → scanParams w ps L h = false := by
  intro ps
  induction ps with
  | nil => intro L h _; rfl
  | cons p rest ih =>
    intro L h hcd
    have h1 : ((w.getStartPosition p).line != L) = true ∧
        chainDistinct w (w.getStartPosition p).line rest = true := by
      simpa [chainDistinct] using hcd
    have hne : ((w.getStartPosition p).line == L) = false := by
      simpa using h1.1
    simp only [scanParams, hne, Bool.and_false, if_false]
    exact ih _ _ h1.2

/-- C1: for every catch clause or finally keyword under test (with the
backward scan finding a preceding `Block`/`CatchClause` sibling and a
non-negative indent count), and for every else keyword under test (else found
among the children, preceded by a sibling, with a `Block` child present), a
violation is emitted if and only if the end line of the preceding node equals
the start line of the keyword node; the violation's fix is anchored at the
keyword's full start, removes exactly one character, and inserts a newline
followed by `indentLevel(keyword, offset 2)` indent units. -/
theorem c1_same_line_check :
    (∀ (w : Walker) (t kw prev : Node),
      getPreviousNode t.getChildren kw = some prev →
      0 ≤ w.getIndentCount kw 2 →
      w.checkTryStatement t kw = Except.ok
        (if w.areOnSameLine prev kw then
          some { start := kw.getStart, width := kw.getWidth
                 message := ControlStatementsOwnLineMessage
                 fix := { start := kw.getFullStart, length := 1
                          text := '\n' :: repeatList w.indent (w.getIndentCount kw 2).toNat } }
        else none)) ∧
    (∀ (w : Walker) (n e prev : Node) (i : Nat),
      (n.getChildren.filter (fun ch => ch.kind == SyntaxKind.ElseKeyword)).head? = some e →
      indexOfNode n.getChildren e = ((i + 1 : Nat) : Int) →
      n.getChildren.get? i = some prev →
      n.getChildren.any (fun ch => ch.kind == SyntaxKind.Block) = true →
      0 ≤ w.getIndentCount e 2 →
      w.visitIfStatement n = Except.ok
        (if w.areOnSameLine prev e then
          some { start := e.getStart, width := e.getWidth
                 message := ControlStatementsOwnLineMessage
                 fix := { start := e.getFullStart, length := 1
                          text := '\n' :: repeatList w.indent (w.getIndentCount e 2).toNat } }
        else none)) :=
  ⟨fun w t kw prev h1 h2 => checkTryStatement_spec w t kw prev h1 h2,
   fun w n e prev i h1 h2 h3 h4 h5 => visitIfStatement_spec w n e prev i h1 h2 h3 h4 h5⟩

theorem c1_witness :
    (getPreviousNode tryStmtN.getChildren tryCatchN = some tryBlockN ∧
      0 ≤ tryW.getIndentCount tryCatchN 2) ∧
    tryW.checkTryStatement tryStmtN tryCatchN = Except.ok
      (if tryW.areOnSameLine tryBlockN tryCatchN then
        some { start := tryCatchN.getStart, width := tryCatchN.getWidth
               message := ControlStatementsOwnLineMessage
               fix := { start := tryCatchN.getFullStart, length := 1
                        text := '\n' :: repeatList tryW.indent
                          (tryW.getIndentCount tryCatchN 2).toNat } }
      else none) :=
  ⟨⟨rfl, by decide⟩, c1_same_line_check.1 tryW tryStmtN tryCatchN tryBlockN rfl (by decide)⟩

/-- C4: the computed indent level equals `startColumn - offset` when tabs are
configured and the rational ceiling of `(startColumn - offset) / indentSize`
otherwise; with `indentSize = 4` a column of 9 at offset 0 yields level 3, and
with tabs a column of 3 at offset 2 yields level 1. -/
theorem c4_indent_level :
    (∀ (w : Walker) (n : Node) (offset : Int), w.tabs = true →
      w.getIndentCount n offset = ((w.getStartPosition n).character : Int) - offset) ∧
    (∀ (w : Walker) (n : Node) (offset : Int), w.tabs = false → 0 < w.size →
      w.getIndentCount n offset =
        ⌈((((w.getStartPosition n).character : Int) - offset : Int) : ℚ) / ((w.size : ℚ))⌉) ∧
    c4W.getIndentCount c4Node9 0 = 3 ∧
    c4WT.getIndentCount c4Node3 2 = 1 := by
  refine ⟨?_, ?_, by decide, by decide⟩
  · intro w n offset h
    simp [Walker.getIndentCount, h]
  · intro w n offset h _
    simp [Walker.getIndentCount, h, mathCeilDiv_eq_ceil]

theorem c4_witness :
    (c4W.tabs = false ∧ 0 < c4W.size) ∧
    c4W.getIndentCount c4Node9 0 =
      ⌈((((c4W.getStartPosition c4Node9).character : Int) - 0 : Int) : ℚ) / ((c4W.size : ℚ))⌉ :=
  ⟨⟨rfl, by decide⟩, c4_indent_level.2.1 c4W c4Node9 0 rfl (by decide)⟩

/-- C5: an if statement with no `Block` among its direct children never has a
violation emitted for its else keyword, regardless of line placement; an if
statement with a `Block` child whose else keyword shares a line with the end
of the preceding sibling (a block) gets a violation. -/
theorem c5_if_block_gate :
    (∀ (w : Walker) (n : Node),
      n.getChildren.any (fun ch => ch.kind == SyntaxKind.Block) = false →
      ∀ v : Violation, w.visitIfStatement n ≠ Except.ok (some v)) ∧
    (∀ (w : Walker) (n e prev : Node) (i : Nat),
      (n.getChildren.filter (fun ch => ch.kind == SyntaxKind.ElseKeyword)).head? = some e →
      indexOfNode n.getChildren e = ((i + 1 : Nat) : Int) →
      n.getChildren.get? i = some prev →
      prev.kind = SyntaxKind.Block →
      n.getChildren.any (fun ch => ch.kind == SyntaxKind.Block) = true →
      w.areOnSameLine prev e = true →
      0 ≤ w.getIndentCount e 2 →
      ∃ v : Violation, w.visitIfStatement n = Except.ok (some v)) := by
  constructor
  · intro w n hb v
    unfold Walker.visitIfStatement
    split
    · exact fun h => by cases h
    · rename_i elseKeyword hsome
      split
      · exact fun h => Except.noConfusion h
      · rename_i previousNode hsome2
        simp [hb]
  · intro w n e prev i he hidx hprev _ hblock hs hcount
    refine ⟨{ start := e.getStart, width := e.getWidth
              message := ControlStatementsOwnLineMessage
              fix := { start := e.getFullStart, length := 1
                       text := '\n' :: repeatList w.indent (w.getIndentCount e 2).toNat } }, ?_⟩
    rw [visitIfStatement_spec w n e prev i he hidx hprev hblock hcount, hs]
    simp

theorem c5_witness :
    (ifStmtN.getChildren.any (fun ch => ch.kind == SyntaxKind.Block) = true ∧
      ifW.areOnSameLine ifThenBlockN ifElseKwN = true) ∧
    (∃ v : Violation, ifW.visitIfStatement ifStmtN = Except.ok (some v)) :=
  ⟨⟨rfl, rfl⟩,
   c5_if_block_gate.2 ifW ifStmtN ifElseKwN ifThenBlockN 4 rfl (by decide) rfl rfl rfl rfl
     (by decide)⟩

/-- C6: evidence for the code bug.  For a try statement whose `finally`
keyword has no preceding `Block`/`CatchClause` sibling, `getPreviousNode`
falls off the front of the child array (JavaScript `children[-1]`, i.e.
`undefined`), and the check then dereferences that `undefined` inside
`areOnSameLine` — the walker raises a `TypeError` instead of skipping. -/
theorem c6_missing_sibling_crash :
    getPreviousNode finTryStmtN.getChildren (Node.mk SyntaxKind.FinallyKeyword [] 3 4 11) =
        none ∧
    finW.visitTryStatement finTryStmtN = Except.error () := ⟨rfl, rfl⟩

/-- C8: when the positional indent-size option is absent or falsy (absent
slot, `0`, or an empty string), the resolved size is 4 — so without tabs the
indent unit is exactly four spaces — and the resolved size is never 0. -/
theorem c8_default_indent_size :
    (∀ (src : List Char) (opts : List OptionValue),
      (opts.get? 2 = none ∨ opts.get? 2 = some (OptionValue.num 0) ∨
          opts.get? 2 = some (OptionValue.str "")) →
      (mkWalker src opts).size = 4 ∧
        ((mkWalker src opts).tabs = false →
          (mkWalker src opts).indent = [' ', ' ', ' ', ' '])) ∧
    (∀ (src : List Char) (opts : List OptionValue), 0 < (mkWalker src opts).size) := by
  constructor
  · intro src opts h
    have hs : resolveSize opts = 4 := by
      rcases h with h | h | h <;>
        rw [List.get?_eq_getElem?] at h <;> simp [resolveSize, h]
    constructor
    · simp [mkWalker, hs]
    · intro ht
      have htabs : hasOption opts OPTION_USE_TABS = false := by
        simpa [mkWalker] using ht
      simp [mkWalker, htabs, hs]
  · intro src opts
    have hpos : 0 < resolveSize opts := by
      unfold resolveSize
      split
      · rename_i n heq
        by_cases hn : n = 0
        · simp [hn]
        · simp [hn]
          omega
      · decide
    simpa [mkWalker] using hpos

theorem c8_witness :
    (mkWalker [] [OptionValue.num 1, OptionValue.num 2, OptionValue.num 0]).size = 4 ∧
      ((mkWalker [] [OptionValue.num 1, OptionValue.num 2, OptionValue.num 0]).tabs = false →
        (mkWalker [] [OptionValue.num 1, OptionValue.num 2, OptionValue.num 0]).indent =
          [' ', ' ', ' ', ' ']) :=
  c8_default_indent_size.1 [] [OptionValue.num 1, OptionValue.num 2, OptionValue.num 0]
    (Or.inr (Or.inl rfl))

/-- C10: the unbraced-body exemption looks only for a `Block` among the if
statement's direct children: for `if (x) a(); else { b(); }` the consequent
(child 4) is not a block, the only block child is the else branch, and the
same-line else keyword still gets a violation. -/
theorem c10_else_block_enables_check :
    if2StmtN.getChildren.get? 4 = some if2ThenN ∧
    if2ThenN.kind ≠ SyntaxKind.Block ∧
    (if2StmtN.getChildren.filter (fun c => c.kind == SyntaxKind.Block)).length = 1 ∧
    if2W.visitIfStatement if2StmtN = Except.ok (some
      { start := 12, width := 4
        message := ControlStatementsOwnLineMessage
        fix := { start := 11, length := 1, text := '\n' :: repeatList if2W.indent 3 } }) :=
  ⟨rfl, by decide, rfl, rfl⟩

/-- C2 counterexample: for the one-line constructor
`constructor(a: number,private b: string)` (property parameter preceded by a
non-property parameter on the same line, separating comma not followed by a
space), a violation is emitted whose fix text leaves the comma unsplit — it
differs from the spec's literal "insert after every comma not already
followed by a newline" rewrite, and in the fixed text both parameters (start
offsets 17 and 27) still share one line, so the claimed "each parameter on
its own line" outcome fails. -/
theorem c2_counterexample :
    cnsW.visitConstructorDeclaration cnsCtorN = some
      { start := 12, width := 27
        message := MultilineConstructorMessage ++ '\n' ::
          ("\n    a: number,private b: string\n").toList
        fix := { start := 12, length := 27
                 text := ("\n    a: number,private b: string\n").toList } } ∧
    ("\n    a: number,private b: string\n").toList ≠
      specInsertAfterCommas (repeatList cnsW.indent 1)
        (('\n' :: repeatList cnsW.indent 1) ++ cnsW.getText cnsSigN ++
          ('\n' :: repeatList cnsW.indent 0)) ∧
    (getLineAndCharacterOfPosition
        (applyReplacement cnsSrc
          { start := 12, length := 27
            text := ("\n    a: number,private b: string\n").toList }) 17).line =
      (getLineAndCharacterOfPosition
        (applyReplacement cnsSrc
          { start := 12, length := 27
            text := ("\n    a: number,private b: string\n").toList }) 27).line :=
  ⟨rfl, by decide, rfl⟩

/-- C2 (amended): for a constructor whose parameters all start on the
constructor's own start line with at least one property-declaring parameter,
exactly one violation is emitted; its fix replaces the entire parameter-list
span with a newline, `count+1` indent units, the parameter-list text, a
newline and `count` indent units, where every comma followed by a space whose
next character is not a newline has that space replaced by a newline plus
`count+1` indent units (`replaceCommaSpace`); commas not followed by a space
are left unsplit. -/
theorem c2_one_line_constructor (w : Walker) (node signature : Node)
    (hsig : (node.getChildren.filter (fun c => c.kind == SyntaxKind.SyntaxList)).head? =
      some signature)
    (hline : ∀ p ∈ signature.getChildren.filter (fun c => c.kind == SyntaxKind.Parameter),
      (w.getStartPosition p).line = (w.getStartPosition node).line)
    (hprop : ∃ p ∈ signature.getChildren.filter (fun c => c.kind == SyntaxKind.Parameter),
      hasVisibilityModifier p = true) :
    w.visitConstructorDeclaration node = some
      { start := signature.getStart
        width := signature.getWidth
        message := MultilineConstructorMessage ++ '\n' ::
          replaceCommaSpace (repeatList w.indent ((w.getIndentCount node 0).toNat + 1))
            (('\n' :: repeatList w.indent ((w.getIndentCount node 0).toNat + 1)) ++
              w.getText signature ++
              ('\n' :: repeatList w.indent (w.getIndentCount node 0).toNat))
        fix := { start := signature.getStart, length := signature.getWidth
                 text := replaceCommaSpace
                   (repeatList w.indent ((w.getIndentCount node 0).toNat + 1))
                   (('\n' :: repeatList w.indent ((w.getIndentCount node 0).toNat + 1)) ++
                     w.getText signature ++
                     ('\n' :: repeatList w.indent (w.getIndentCount node 0).toNat)) } } := by
  have hscan := scanParams_same_line w
    (signature.getChildren.filter (fun c => c.kind == SyntaxKind.Parameter))
    (w.getStartPosition node).line false hline (Or.inr hprop)
  unfold Walker.visitConstructorDeclaration
  split
  · rename_i hnone
    rw [hnone] at hsig
    cases hsig
  · rename_i sig2 hsome
    rw [hsig] at hsome
    injection hsome with hEq
    subst hEq
    simp [hscan]

theorem c2_witness :
    ((∀ p ∈ cspSigN.getChildren.filter (fun c => c.kind == SyntaxKind.Parameter),
        (cspW.getStartPosition p).line = (cspW.getStartPosition cspCtorN).line) ∧
      (∃ p ∈ cspSigN.getChildren.filter (fun c => c.kind == SyntaxKind.Parameter),
        hasVisibilityModifier p = true)) ∧
    cspW.visitConstructorDeclaration cspCtorN = some
      { start := cspSigN.getStart
        width := cspSigN.getWidth
        message := MultilineConstructorMessage ++ '\n' ::
          replaceCommaSpace (repeatList cspW.indent ((cspW.getIndentCount cspCtorN 0).toNat + 1))
            (('\n' :: repeatList cspW.indent ((cspW.getIndentCount cspCtorN 0).toNat + 1)) ++
              cspW.getText cspSigN ++
              ('\n' :: repeatList cspW.indent (cspW.getIndentCount cspCtorN 0).toNat))
        fix := { start := cspSigN.getStart, length := cspSigN.getWidth
                 text := replaceCommaSpace
                   (repeatList cspW.indent ((cspW.getIndentCount cspCtorN 0).toNat + 1))
                   (('\n' :: repeatList cspW.indent ((cspW.getIndentCount cspCtorN 0).toNat + 1)) ++
                     cspW.getText cspSigN ++
                     ('\n' :: repeatList cspW.indent (cspW.getIndentCount cspCtorN 0).toNat)) } } :=
  ⟨⟨by decide, by decide⟩,
   c2_one_line_constructor cspW cspCtorN cspSigN rfl (by decide) (by decide)⟩

/-- C3 counterexample: `constructor(private b: string)` on one line has
exactly one parameter carrying a visibility modifier (so all parameters are
trivially on distinct lines), yet a violation is emitted — the scan seeds
`previousLine` with the constructor's own start line, so a single property
parameter on the constructor's line already triggers, contradicting the
claimed "two-plus parameters sharing a line" trigger. -/
theorem c3_counterexample :
    (c1pCtorN.getChildren.filter (fun c => c.kind == SyntaxKind.SyntaxList)).head? =
        some c1pSigN ∧
    c1pSigN.getChildren.filter (fun c => c.kind == SyntaxKind.Parameter) = [c1pParamN] ∧
    hasVisibilityModifier c1pParamN = true ∧
    c1pW.visitConstructorDeclaration c1pCtorN = some
      { start := 12, width := 17
        message := MultilineConstructorMessage ++ '\n' ::
          ("\n    private b: string\n").toList
        fix := { start := 12, length := 17
                 text := ("\n    private b: string\n").toList } } :=
  ⟨rfl, rfl, rfl, rfl⟩

/-- C3 (amended): for a constructor with zero or one visibility-modified
parameter whose parameters each start on a line different from the previous
parameter's line and (for the first parameter) from the constructor's own
start line, no multiline-constructor violation is emitted. -/
theorem c3_distinct_lines (w : Walker) (node signature : Node)
    (hsig : (node.getChildren.filter (fun c => c.kind == SyntaxKind.SyntaxList)).head? =
      some signature)
    (_hcount : (signature.getChildren.filter
        (fun c => c.kind == SyntaxKind.Parameter)).countP
          (fun p => hasVisibilityModifier p) ≤ 1)
    (hchain : chainDistinct w (w.getStartPosition node).line
      (signature.getChildren.filter (fun c => c.kind == SyntaxKind.Parameter)) = true) :
    w.visitConstructorDeclaration node = none := by
  have hscan := scanParams_chain w
    (signature.getChildren.filter (fun c => c.kind == SyntaxKind.Parameter))
    (w.getStartPosition node).line false hchain
  unfold Walker.visitConstructorDeclaration
  split
  · rename_i hnone
    rfl
  · rename_i sig2 hsome
    rw [hsig] at hsome
    injection hsome with hEq
    subst hEq
    simp [hscan]

theorem c3_witness :
    ((c2lCtorN.getChildren.filter (fun c => c.kind == SyntaxKind.SyntaxList)).head? =
        some (Node.mk SyntaxKind.SyntaxList [c2lParamN] 12 17 34) ∧
      (((Node.mk SyntaxKind.SyntaxList [c2lParamN] 12 17 34 : Node).getChildren.filter
        (fun c => c.kind == SyntaxKind.Parameter)).countP
          (fun p => hasVisibilityModifier p) ≤ 1) ∧
      chainDistinct c2lW (c2lW.getStartPosition c2lCtorN).line
        ((Node.mk SyntaxKind.SyntaxList [c2lParamN] 12 17 34 : Node).getChildren.filter
          (fun c => c.kind == SyntaxKind.Parameter)) = true) ∧
    c2lW.visitConstructorDeclaration c2lCtorN = none :=
  ⟨⟨rfl, by decide, rfl⟩,
   c3_distinct_lines c2lW c2lCtorN (Node.mk SyntaxKind.SyntaxList [c2lParamN] 12 17 34) rfl
     (by decide) rfl⟩

/-- C9: in the constructor fix text the substitution applies to every
occurrence of a comma followed by a space whose next character is not a
newline, anywhere in the parameter-list text (the prefix `a` is arbitrary, so
this covers commas inside type arguments and default values), replacing the
space by a newline plus the indent; a comma not followed by a space is never
split. -/
theorem c9_comma_substitution (ind a b : List Char) :
    (b.head? ≠ some '\n' →
      replaceCommaSpace ind (a ++ ',' :: ' ' :: b) =
        replaceCommaSpace ind a ++ ',' :: '\n' :: (ind ++ replaceCommaSpace ind b)) ∧
    (b.head? ≠ some ' ' →
      replaceCommaSpace ind (a ++ ',' :: b) =
        replaceCommaSpace ind a ++ ',' :: replaceCommaSpace ind b) :=
  ⟨fun hb => rcs_append_comma_space ind b hb a, fun hb => rcs_append_comma ind b hb a⟩

theorem c9_witness :
    ((("number> m").toList.head? ≠ some '\n' ∧
      replaceCommaSpace ([' ', ' ', ' ', ' '])
          ((("a: Map<string").toList) ++ ',' :: ' ' :: ("number> m").toList) =
        replaceCommaSpace ([' ', ' ', ' ', ' ']) (("a: Map<string").toList) ++
          ',' :: '\n' :: (([' ', ' ', ' ', ' ']) ++
            replaceCommaSpace ([' ', ' ', ' ', ' ']) (("number> m").toList)))) ∧
    ((("private b").toList.head? ≠ some ' ' ∧
      replaceCommaSpace ([' ', ' ', ' ', ' '])
          ((("a: number").toList) ++ ',' :: ("private b").toList) =
        replaceCommaSpace ([' ', ' ', ' ', ' ']) (("a: number").toList) ++
          ',' :: replaceCommaSpace ([' ', ' ', ' ', ' ']) (("private b").toList))) :=
  ⟨⟨by decide,
    (c9_comma_substitution ([' ', ' ', ' ', ' ']) (("a: Map<string").toList)
      (("number> m").toList)).1 (by decide)⟩,
   ⟨by decide,
    (c9_comma_substitution ([' ', ' ', ' ', ' ']) (("a: number").toList)
      (("private b").toList)).2 (by decide)⟩⟩

/-!
Fixtures for the fix-idempotence claim: the violations emitted on the
original fixtures, the fixed texts, and (for the no-space-comma constructor)
the violation emitted again on the re-parsed fixed text.
-/

def tryViol : Violation :=
  { start := 13, width := 18, message := ControlStatementsOwnLineMessage
    fix := { start := 12, length := 1, text := '\n' :: repeatList tryW.indent 3 } }

def cnsFixText : List Char := ("\n    a: number,private b: string\n").toList

def cnsViol : Violation :=
  { start := 12, width := 27, message := MultilineConstructorMessage ++ '\n' :: cnsFixText
    fix := { start := 12, length := 27, text := cnsFixText } }

def cnsSrc2 : List Char := ("constructor(\n    a: number,private b: string\n)").toList

def cnsViol2 : Violation :=
  { start := 17, width := 27, message := MultilineConstructorMessage ++ '\n' :: cnsFixText
    fix := { start := 17, length := 27, text := cnsFixText } }

def cspFixText : List Char := ("\n    a: number,\n    private b: string\n").toList

def cspViol : Violation :=
  { start := 12, width := 28, message := MultilineConstructorMessage ++ '\n' :: cspFixText
    fix := { start := 12, length := 28, text := cspFixText } }

def cspSrc2 : List Char := ("constructor(\n    a: number,\n    private b: string\n)").toList

/-- After replacing the single character at offset `p` with a text containing
a newline, a node ending at or before `p` and a keyword starting at or past
the end of the inserted text are no longer on one line of the new source. -/
theorem rerun_not_same_line (w : Walker) (prev2 kw2 : Node) (p : Nat) (ins sNew : List Char)
    (hins : '\n' ∈ ins)
    (happ : sNew = (w.src.take p ++ ins) ++ w.src.drop (p + 1))
    (hep : prev2.getEnd ≤ p) (hp : p ≤ w.src.length)
    (hk : ∃ k, kw2.getStart = p + ins.length + k) :
    Walker.areOnSameLine
      { src := sNew, tabs := w.tabs, size := w.size, indent := w.indent } prev2 kw2 = false := by
  obtain ⟨k, hk⟩ := hk
  unfold Walker.areOnSameLine Walker.getEndPosition Walker.getStartPosition
  simp only [happ, hk, line_eq_count]
  exact beq_eq_false_iff_ne.mpr
    (Nat.ne_of_lt (count_newline_lt w.src ins p prev2.getEnd k hep hp hins))

/-- C7 counterexample: for `constructor(a: number,private b: string)` the
emitted fix leaves the space-less comma alone, so the fixed text
`constructor(\n    a: number,private b: string\n)` still has both parameters
on one line — re-running the constructor inspector on its parse tree emits
the same kind of violation again.  Fix application is not idempotent. -/
theorem c7_counterexample :
    cnsW.visitConstructorDeclaration cnsCtorN = some cnsViol ∧
    applyReplacement cnsSrc cnsViol.fix = cnsSrc2 ∧
    (mkWalker cnsSrc2 []).visitConstructorDeclaration cnsCtor2N = some cnsViol2 :=
  ⟨rfl, rfl, rfl⟩

/-- C7 (amended): applying the fix for a same-line catch/finally violation —
and likewise for a same-line else violation — and re-running the check on the
re-parsed construct of the fixed text yields no further violation of that
kind, provided the keyword had leading trivia (`getFullStart < getStart`, so
the removed character is the separator, not the keyword itself); the
constructor fix is likewise idempotent for the spec's comma-space example,
while a parameter list with a comma not followed by a space re-triggers (see
the counterexample). -/
theorem c7_fix_idempotent :
    (∀ (w : Walker) (t kw prev : Node) (viol : Violation) (t2 kw2 prev2 : Node),
      w.checkTryStatement t kw = Except.ok (some viol) →
      getPreviousNode t.getChildren kw = some prev →
      prev.getEnd ≤ kw.getFullStart →
      kw.getFullStart < kw.getStart →
      kw.getStart ≤ w.src.length →
      getPreviousNode t2.getChildren kw2 = some prev2 →
      prev2.getEnd = prev.getEnd →
      kw2.getStart + 1 = kw.getStart + viol.fix.text.length →
      Walker.checkTryStatement
        { src := applyReplacement w.src viol.fix, tabs := w.tabs, size := w.size
          indent := w.indent } t2 kw2 = Except.ok none) ∧
    (∀ (w : Walker) (n e prev : Node) (i : Nat) (viol : Violation)
        (n2 e2 prev2 : Node) (i2 : Nat),
      (n.getChildren.filter (fun ch => ch.kind == SyntaxKind.ElseKeyword)).head? = some e →
      indexOfNode n.getChildren e = ((i + 1 : Nat) : Int) →
      n.getChildren.get? i = some prev →
      w.visitIfStatement n = Except.ok (some viol) →
      prev.getEnd ≤ e.getFullStart →
      e.getFullStart < e.getStart →
      e.getStart ≤ w.src.length →
      (n2.getChildren.filter (fun ch => ch.kind == SyntaxKind.ElseKeyword)).head? = some e2 →
      indexOfNode n2.getChildren e2 = ((i2 + 1 : Nat) : Int) →
      n2.getChildren.get? i2 = some prev2 →
      prev2.getEnd = prev.getEnd →
      e2.getStart + 1 = e.getStart + viol.fix.text.length →
      Walker.visitIfStatement
        { src := applyReplacement w.src viol.fix, tabs := w.tabs, size := w.size
          indent := w.indent } n2 = Except.ok none) ∧
    (cspW.visitConstructorDeclaration cspCtorN = some cspViol ∧
      applyReplacement cspSrc cspViol.fix = cspSrc2 ∧
      (mkWalker cspSrc2 []).visitConstructorDeclaration cspCtor2N = none) := by
  refine ⟨?_, ?_, rfl, rfl, rfl⟩
  · intro w t kw prev viol t2 kw2 prev2 hchk hprev hfp hfs hlen hprev2 hend2 hstart2
    obtain ⟨hs, hfix⟩ := checkTryStatement_inv w t kw prev viol hprev hchk
    rw [hfix] at hstart2
    have happ : applyReplacement w.src viol.fix =
        (w.src.take kw.getFullStart ++
          ('\n' :: repeatList w.indent (w.getIndentCount kw 2).toNat)) ++
          w.src.drop (kw.getFullStart + 1) := by
      rw [hfix]; rfl
    have hfalse := rerun_not_same_line w prev2 kw2 kw.getFullStart
      ('\n' :: repeatList w.indent (w.getIndentCount kw 2).toNat)
      (applyReplacement w.src viol.fix)
      (List.mem_cons_self _ _) happ (by omega) (by omega)
      ⟨kw.getStart - 1 - kw.getFullStart, by
        simp only [List.length_cons] at hstart2 ⊢
        omega⟩
    unfold Walker.checkTryStatement
    split
    · rename_i hnone
      rw [hprev2] at hnone
      cases hnone
    · rename_i previousNode hsome
      rw [hprev2] at hsome
      injection hsome with hEq
      subst hEq
      simp [hfalse]
  · intro w n e prev i viol n2 e2 prev2 i2 he hidx hprev hchk hfp hfs hlen he2 hidx2 hprev2
      hend2 hstart2
    obtain ⟨hs, hfix⟩ := visitIfStatement_inv w n e prev i viol he hidx hprev hchk
    rw [hfix] at hstart2
    have happ : applyReplacement w.src viol.fix =
        (w.src.take e.getFullStart ++
          ('\n' :: repeatList w.indent (w.getIndentCount e 2).toNat)) ++
          w.src.drop (e.getFullStart + 1) := by
      rw [hfix]; rfl
    have hfalse := rerun_not_same_line w prev2 e2 e.getFullStart
      ('\n' :: repeatList w.indent (w.getIndentCount e 2).toNat)
      (applyReplacement w.src viol.fix)
      (List.mem_cons_self _ _) happ (by omega) (by omega)
      ⟨e.getStart - 1 - e.getFullStart, by
        simp only [List.length_cons] at hstart2 ⊢
        omega⟩
    exact visitIfStatement_not_same_line _ n2 e2 prev2 i2 he2 hidx2 hprev2 hfalse

theorem c7_witness :
    (tryW.checkTryStatement tryStmtN tryCatchN = Except.ok (some tryViol) ∧
      getPreviousNode tryStmtN2.getChildren tryCatchN2 = some tryBlockN ∧
      tryCatchN2.getStart + 1 = tryCatchN.getStart + tryViol.fix.text.length) ∧
    Walker.checkTryStatement
      { src := applyReplacement tryW.src tryViol.fix, tabs := tryW.tabs, size := tryW.size
        indent := tryW.indent } tryStmtN2 tryCatchN2 = Except.ok none :=
  ⟨⟨rfl, rfl, by decide⟩,
   c7_fix_idempotent.1 tryW tryStmtN tryCatchN tryBlockN tryViol tryStmtN2 tryCatchN2 tryBlockN
     rfl rfl (by decide) (by decide) (by decide) rfl rfl (by decide)⟩
